import Mathlib

/-!
Verification development for the meta-dao front-end transaction builders
(`useOpenbookTwap`) and the `ProposalList` component.

The TypeScript source is embedded shallowly:
* `PublicKey` is a free inductive type whose constructors model the injective
  address derivations used by the code (plain keys, program-derived addresses,
  associated token addresses, and the open-orders derivations of `lib/openbook`).
* The asynchronous account fetches (`openOrdersIndexer.fetch`, `eventHeap.fetch`,
  `getVaultMint`) are passed to the builders as explicit inputs; an `Option`
  distinguishes a successful fetch (`some`) from a thrown/absent one (`none`).
* A transaction is its list of instructions, and each anchor `methods.x(...)`
  call site becomes an `Instruction` constructor recording the target program,
  the arguments and the account layout.
* JavaScript numbers reaching `Math.floor` are modelled as rationals, `BN`
  values as integers, and optional numeric/boolean parameters as `Option`s with
  explicit JavaScript truthiness where the source tests them with `!`/`||`.
-/

set_option autoImplicit false

namespace MetaDaoFrontend

/-- Public keys, as a free datatype over the address derivations the code uses.
`pda` models `PublicKey.findProgramAddressSync` at the two-seed call shape used
in this codebase (a string seed followed by a key seed); `ata` models
`getAssociatedTokenAddressSync`; `openOrders` and `openOrdersIndexer` model the
derivations of `lib/openbook`. Distinct derivations give distinct keys, which is
the intended collision-freeness of the underlying hash-based derivations. -/
inductive PublicKey where
  | named (s : String)
  | pda (seedStr : String) (seedKey : PublicKey) (programId : PublicKey)
  | ata (mint : PublicKey) (owner : PublicKey)
  | openOrders (accountIndex : Int) (owner : PublicKey)
  | openOrdersIndexer (owner : PublicKey)
  deriving DecidableEq, Repr

/-- An injective-by-construction rendering of a key, modelling
`PublicKey.toString()` (base58 of the 32-byte key, injective on keys). -/
def pkToStr : PublicKey → String
  | .named s => "named:" ++ s
  | .pda s k p => "pda:" ++ s ++ "(" ++ pkToStr k ++ ";" ++ pkToStr p ++ ")"
  | .ata m o => "ata:(" ++ pkToStr m ++ ";" ++ pkToStr o ++ ")"
  | .openOrders i o => "oo:" ++ toString i ++ "(" ++ pkToStr o ++ ")"
  | .openOrdersIndexer o => "ooi:(" ++ pkToStr o ++ ")"

/-- Models `PublicKey.findProgramAddressSync([seedStr, seedKey], programId)[0]`,
the only call shape used by this codebase. -/
def findProgramAddressSync (seedStr : String) (seedKey : PublicKey)
    (programId : PublicKey) : PublicKey :=
  .pda seedStr seedKey programId

/-- Models `getAssociatedTokenAddressSync(mint, owner)` from `@solana/spl-token`. -/
def getAssociatedTokenAddressSync (mint owner : PublicKey) : PublicKey :=
  .ata mint owner

/-- Modelled from the spec: `lib/constants` (not under `src/`) holds the fixed id
of the pre-deployed time-weighted-average-price wrapper program. -/
def OPENBOOK_TWAP_PROGRAM_ID : PublicKey := .named "openbook-twap-program"

/-- Modelled from the spec: the fixed id of the pre-deployed order-book exchange
program, held by the `useOpenbook` hook (not under `src/`). -/
def OPENBOOK_PROGRAM_ID : PublicKey := .named "openbook-program"

/-- The SPL token program id constant. -/
def TOKEN_PROGRAM_ID : PublicKey := .named "token-program"

/-- The system program id constant declared at the top of the hook file. -/
def SYSTEM_PROGRAM : PublicKey := .named "11111111111111111111111111111111"

/-- Modelled from the spec: `findOpenOrdersIndexer` of `lib/openbook` (not under
`src/`), a deterministic address derivation from the owner. -/
def findOpenOrdersIndexer (owner : PublicKey) : PublicKey :=
  .openOrdersIndexer owner

/-- Modelled from the spec: `findOpenOrders` of `lib/openbook` (not under
`src/`), a deterministic address derivation from the account index and owner. -/
def findOpenOrders (accountIndex : Int) (owner : PublicKey) : PublicKey :=
  .openOrders accountIndex owner

/-- Modelled from the spec: `shortKey` of `lib/utils` (not under `src/`)
abbreviates a key for display. -/
def shortKey (k : PublicKey) : String :=
  (pkToStr k).take 8

/-- The `market.account` fields this hook reads. -/
structure MarketAccount where
  baseMint : PublicKey
  quoteMint : PublicKey
  asks : PublicKey
  bids : PublicKey
  eventHeap : PublicKey
  marketBaseVault : PublicKey
  marketQuoteVault : PublicKey
  marketAuthority : PublicKey
  deriving DecidableEq, Repr

/-- A market account together with its address (`MarketAccountWithKey`). -/
structure MarketAccountWithKey where
  publicKey : PublicKey
  account : MarketAccount
  deriving DecidableEq, Repr

/-- The fetched open-orders indexer account (`openOrdersIndexer.fetch`). -/
structure OpenOrdersIndexerAccount where
  createdCounter : Int
  deriving DecidableEq, Repr

/-- A conditional-vault account as returned by `getVaultMint`. -/
structure VaultAccount where
  conditionalOnFinalizeTokenMint : PublicKey
  conditionalOnRevertTokenMint : PublicKey
  deriving DecidableEq, Repr

/-- One node of the fetched event heap. `eventType` 0 is a fill event and any
other value an out event; `decodedKey` is the key the anchor coder decodes from
the node's padding bytes (`FillEvent.maker` for fills, `OutEvent.owner`
otherwise). -/
structure EventNode where
  eventType : Int
  decodedKey : PublicKey
  deriving DecidableEq, Repr

/-- The fetched event heap account. -/
structure EventHeap where
  nodes : List EventNode
  deriving DecidableEq, Repr

/-- Order side enum of the openbook client. -/
inductive Side where
  | bid
  | ask
  deriving DecidableEq, Repr

/-- Order type enum of the openbook client. -/
inductive OrderType where
  | limit
  | market
  deriving DecidableEq, Repr

/-- Self-trade behavior enum of the openbook client. -/
inductive SelfTradeBehavior where
  | abortTransaction
  deriving DecidableEq, Repr

/-- The `PlaceOrderArgs` record passed to `placeOrder`. -/
structure PlaceOrderArgs where
  side : Side
  priceLots : Int
  maxBaseLots : Int
  maxQuoteLotsIncludingFees : Int
  clientOrderId : Int
  orderType : OrderType
  expiryTimestamp : Int
  selfTradeBehavior : SelfTradeBehavior
  limit : Int
  deriving DecidableEq, Repr

/-- An `AccountMeta` of `@solana/web3.js`. -/
structure AccountMeta where
  pubkey : PublicKey
  isSigner : Bool
  isWritable : Bool
  deriving DecidableEq, Repr

/-- The account layout of the `placeOrder` call. -/
structure PlaceOrderAccounts where
  openOrdersAccount : PublicKey
  asks : PublicKey
  bids : PublicKey
  eventHeap : PublicKey
  market : PublicKey
  marketVault : PublicKey
  twapMarket : PublicKey
  userTokenAccount : PublicKey
  openbookProgram : PublicKey
  deriving DecidableEq, Repr

/-- The account layout of the `settleFunds` call. -/
structure SettleFundsAccounts where
  owner : PublicKey
  penaltyPayer : PublicKey
  openOrdersAccount : PublicKey
  market : PublicKey
  marketAuthority : PublicKey
  marketBaseVault : PublicKey
  marketQuoteVault : PublicKey
  userBaseAccount : PublicKey
  userQuoteAccount : PublicKey
  referrerAccount : Option PublicKey
  tokenProgram : PublicKey
  systemProgram : PublicKey
  deriving DecidableEq, Repr

/-- The account layout of the `consumeEvents` call. -/
structure ConsumeEventsAccounts where
  consumeEventsAdmin : PublicKey
  market : PublicKey
  eventHeap : PublicKey
  deriving DecidableEq, Repr

/-- The account layout of the `closeOpenOrdersAccount` call. -/
structure CloseOpenOrdersAccounts where
  owner : PublicKey
  openOrdersIndexer : PublicKey
  openOrdersAccount : PublicKey
  solDestination : PublicKey
  deriving DecidableEq, Repr

/-- The account layout of the `cancelOrderByClientId` call. -/
structure CancelOrderAccounts where
  openOrdersAccount : PublicKey
  asks : PublicKey
  bids : PublicKey
  market : PublicKey
  twapMarket : PublicKey
  openbookProgram : PublicKey
  deriving DecidableEq, Repr

/-- One built instruction: the target program, the arguments and the accounts of
the corresponding anchor `methods.x(...)` call site. -/
inductive Instruction where
  | createOpenOrdersIndexer (program : PublicKey) (openOrdersIndexer owner : PublicKey)
  | createOpenOrders (program : PublicKey) (market : PublicKey) (accountIndex : Int)
      (name : String) (owner openOrdersIndexerAccount : PublicKey)
  | placeOrder (program : PublicKey) (args : PlaceOrderArgs) (accounts : PlaceOrderAccounts)
  | consumeEvents (program : PublicKey) (limit : Int) (accounts : ConsumeEventsAccounts)
      (remainingAccounts : List AccountMeta)
  | settleFunds (program : PublicKey) (accounts : SettleFundsAccounts)
  | closeOpenOrdersAccount (program : PublicKey) (accounts : CloseOpenOrdersAccounts)
  | cancelOrderByClientId (program : PublicKey) (clientOrderId : Int)
      (accounts : CancelOrderAccounts)
  deriving DecidableEq, Repr

/-- Whether an instruction is a `placeOrder` invocation. -/
def Instruction.isPlaceOrderIx : Instruction → Bool
  | .placeOrder _ _ _ => true
  | _ => false

/-- A transaction, reduced to its instruction list (both `Transaction` with
`preInstructions` and `VersionedTransaction` are built purely from instruction
lists here). -/
abbrev Tx := List Instruction

/-- JavaScript truthiness of an optional number: `undefined` and `0` are falsy
(the source tests `indexOffset` with `!indexOffset`). -/
def jsFalsy : Option Int → Bool
  | none => true
  | some n => n == 0

/-- Modelled from the spec: `createOpenOrdersIndexerInstruction` of
`lib/openbook` (not under `src/`) builds the indexer-creation instruction on the
order-book program. -/
def createOpenOrdersIndexerInstruction (indexer owner : PublicKey) : Instruction :=
  .createOpenOrdersIndexer OPENBOOK_PROGRAM_ID indexer owner

/-- Modelled from the spec: `createOpenOrdersInstruction` of `lib/openbook` (not
under `src/`) builds the open-orders-account creation instructions on the
order-book program and returns them with the derived open-orders address. -/
def createOpenOrdersInstruction (marketKey : PublicKey) (accountIndex : Int)
    (name : String) (owner indexer : PublicKey) : List Instruction × PublicKey :=
  ([.createOpenOrders OPENBOOK_PROGRAM_ID marketKey accountIndex name owner indexer],
    findOpenOrders accountIndex owner)

/-- The account index computed by `placeOrderTransactions`: `new BN(1)` at first;
on a successful indexer fetch it becomes
`(indexer.createdCounter || 0) + 1 + (indexOffset || 0)` (for an integer `n`,
`n || 0` is `n`); on a failed fetch it stays `1` when `indexOffset` is falsy and
becomes `1 + indexOffset` otherwise. -/
def accountIndexOf : Option OpenOrdersIndexerAccount → Option Int → Int
  | some indexer, indexOffset => indexer.createdCounter + 1 + indexOffset.getD 0
  | none, indexOffset => if jsFalsy indexOffset then 1 else 1 + indexOffset.getD 0

/-- The instructions added to `openTx` by the catch branch of
`placeOrderTransactions`: the indexer-creation instruction exactly when the
indexer fetch failed and `indexOffset` is falsy. -/
def openPreInstructions (wpk : PublicKey) :
    Option OpenOrdersIndexerAccount → Option Int → List Instruction
  | some _, _ => []
  | none, indexOffset =>
    if jsFalsy indexOffset then
      [createOpenOrdersIndexerInstruction (findOpenOrdersIndexer wpk) wpk]
    else []

/-- The `PlaceOrderArgs` built by `placeOrderTransactions`. -/
def placeOrderArgsOf (QUOTE_LOTS amount price : ℚ) (limitOrder ask : Bool)
    (accountIndex : Int) : PlaceOrderArgs :=
  let priceLots : Int := Int.floor (price / QUOTE_LOTS)
  let maxBaseLots : Int := Int.floor amount
  let maxQuoteLotsIncludingFees : Int := priceLots * maxBaseLots
  let priceLots2 : Int :=
    if limitOrder then priceLots else if ask then 1 else 1000000000000000
  let maxQuote2 : Int :=
    if limitOrder then maxQuoteLotsIncludingFees
    else if ask then Int.floor ((10 : ℚ) / QUOTE_LOTS)
    else 1000000000000000 * maxBaseLots
  { side := if ask then .ask else .bid
    priceLots := priceLots2
    maxBaseLots := maxBaseLots
    maxQuoteLotsIncludingFees := maxQuote2
    clientOrderId := accountIndex
    orderType := if limitOrder then .limit else .market
    expiryTimestamp := 0
    selfTradeBehavior := .abortTransaction
    limit := 255 }

/-- `placeOrderTransactions`. The wallet key and the two program handles are the
guard inputs (`none` when absent); `indexerFetch` is the outcome of fetching the
open-orders indexer account (`none` when the fetch threw); the remaining
parameters are the source parameters, with the unused `pass` flag kept and the
optional booleans reduced to their truthiness. -/
def placeOrderTransactions (QUOTE_LOTS : ℚ) (walletPublicKey : Option PublicKey)
    (openbook : Option Unit) (openbookTwap : Option Unit)
    (indexerFetch : Option OpenOrdersIndexerAccount)
    (amount price : ℚ) (market : MarketAccountWithKey)
    (limitOrder ask pass : Bool) (indexOffset : Option Int) : Option (List Tx) :=
  match walletPublicKey, openbook, openbookTwap with
  | some wpk, some _, some _ =>
    let _unusedPass := pass
    let openOrdersIndexer := findOpenOrdersIndexer wpk
    let mint := if ask then market.account.baseMint else market.account.quoteMint
    let accountIndex := accountIndexOf indexerFetch indexOffset
    let openTxIxs := openPreInstructions wpk indexerFetch indexOffset
    let created := createOpenOrdersInstruction market.publicKey accountIndex
      (shortKey wpk ++ "-" ++ toString accountIndex) wpk openOrdersIndexer
    let args := placeOrderArgsOf QUOTE_LOTS amount price limitOrder ask accountIndex
    let accounts : PlaceOrderAccounts :=
      { openOrdersAccount := created.2
        asks := market.account.asks
        bids := market.account.bids
        eventHeap := market.account.eventHeap
        market := market.publicKey
        marketVault :=
          if ask then market.account.marketBaseVault else market.account.marketQuoteVault
        twapMarket :=
          findProgramAddressSync "twap_market" market.publicKey OPENBOOK_TWAP_PROGRAM_ID
        userTokenAccount := getAssociatedTokenAddressSync mint wpk
        openbookProgram := OPENBOOK_PROGRAM_ID }
    some [(openTxIxs ++ created.1) ++ [Instruction.placeOrder OPENBOOK_TWAP_PROGRAM_ID args accounts]]
  | _, _, _ => none

/-- A decoded event key as the JavaScript object it is at runtime: its key value
together with a fresh object identity (the index of the decode that produced
it), since each `coder.types.decode` call allocates a new object and the source
compares objects with `!==`, which is reference inequality. -/
structure ObjKey where
  value : PublicKey
  objId : Nat
  deriving DecidableEq, Repr

/-- One iteration of the event-heap loop body of `crankMarketTransactions`:
decode the node (a fill event's `maker` when `eventType` is 0, an out event's
`owner` otherwise — both land in `decodedKey`), then
`accounts = accounts.filter((a) => a !== decoded).concat([decoded])`. -/
def crankStep (acc : List ObjKey) (n : EventNode) (i : Nat) : List ObjKey :=
  if n.eventType = 0 then
    let maker : ObjKey := ⟨n.decodedKey, i⟩
    (acc.filter fun a => a ≠ maker) ++ [maker]
  else
    let owner : ObjKey := ⟨n.decodedKey, i⟩
    (acc.filter fun a => a ≠ owner) ++ [owner]

/-- The event-heap loop of `crankMarketTransactions` in the branch without an
`individualEvent`: after each node it stops as soon as more than 20 accounts
have accumulated (`if (accounts.length > 20) break`). -/
def crankAccumulateTrunc : List EventNode → Nat → List ObjKey → List ObjKey
  | [], _, acc => acc
  | n :: rest, i, acc =>
    let acc2 := crankStep acc n i
    if acc2.length > 20 then acc2 else crankAccumulateTrunc rest (i + 1) acc2

/-- The event-heap loop of `crankMarketTransactions` in the branch with an
`individualEvent`: identical body but no length cutoff. -/
def crankAccumulateAll : List EventNode → Nat → List ObjKey → List ObjKey
  | [], _, acc => acc
  | n :: rest, i, acc => crankAccumulateAll rest (i + 1) (crankStep acc n i)

/-- `crankMarketTransactions`. `heapFetch` is the fetched event heap (`none`
models a `null` fetch result, which both `!= null` guards skip). -/
def crankMarketTransactions (walletPublicKey : Option PublicKey)
    (openbook : Option Unit) (openbookTwap : Option Unit)
    (heapFetch : Option EventHeap) (market : MarketAccountWithKey)
    (individualEvent : Option PublicKey) : Option (List Tx) :=
  match walletPublicKey, openbook, openbookTwap with
  | some _, some _, some _ =>
    let accounts : List ObjKey :=
      match individualEvent, heapFetch with
      | none, some heap => crankAccumulateTrunc heap.nodes 0 []
      | some _, some heap => crankAccumulateAll heap.nodes 0 []
      | _, none => []
    let accountsMeta : List AccountMeta :=
      accounts.map fun remaining => ⟨remaining.value, false, true⟩
    let filteredAccounts : List AccountMeta :=
      match individualEvent with
      | some ev => accountsMeta.filter fun order => pkToStr order.pubkey == pkToStr ev
      | none => accountsMeta
    some [[Instruction.consumeEvents OPENBOOK_PROGRAM_ID (filteredAccounts.length : Int)
      { consumeEventsAdmin := OPENBOOK_PROGRAM_ID
        market := market.publicKey
        eventHeap := market.account.eventHeap } filteredAccounts]]
  | _, _, _ => none

/-- `settleFundsTransactions`. `quoteVault` and `baseVault` are the results of
the two `getVaultMint` fetches on the proposal's vaults. -/
def settleFundsTransactions (walletPublicKey : Option PublicKey)
    (openbook : Option Unit) (orderId : Int) (passMarket : Bool)
    (quoteVault baseVault : VaultAccount)
    (market : MarketAccountWithKey) : Option (List Tx) :=
  match walletPublicKey, openbook with
  | some wpk, some _ =>
    let openOrdersAccount := findOpenOrders orderId wpk
    let userBasePass :=
      getAssociatedTokenAddressSync baseVault.conditionalOnFinalizeTokenMint wpk
    let userQuotePass :=
      getAssociatedTokenAddressSync quoteVault.conditionalOnFinalizeTokenMint wpk
    let userBaseFail :=
      getAssociatedTokenAddressSync baseVault.conditionalOnRevertTokenMint wpk
    let userQuoteFail :=
      getAssociatedTokenAddressSync quoteVault.conditionalOnRevertTokenMint wpk
    let userBaseAccount := if passMarket then userBasePass else userBaseFail
    let userQuoteAccount := if passMarket then userQuotePass else userQuoteFail
    some [[Instruction.settleFunds OPENBOOK_PROGRAM_ID
      { owner := wpk
        penaltyPayer := wpk
        openOrdersAccount := openOrdersAccount
        market := market.publicKey
        marketAuthority := market.account.marketAuthority
        marketBaseVault := market.account.marketBaseVault
        marketQuoteVault := market.account.marketQuoteVault
        userBaseAccount := userBaseAccount
        userQuoteAccount := userQuoteAccount
        referrerAccount := none
        tokenProgram := TOKEN_PROGRAM_ID
        systemProgram := SYSTEM_PROGRAM }]]
  | _, _ => none

/-- `closeOpenOrdersAccountTransactions`. -/
def closeOpenOrdersAccountTransactions (walletPublicKey : Option PublicKey)
    (openbook : Option Unit) (orderId : Int) : Option (List Tx) :=
  match walletPublicKey, openbook with
  | some wpk, some _ =>
    some [[Instruction.closeOpenOrdersAccount OPENBOOK_PROGRAM_ID
      { owner := wpk
        openOrdersIndexer := findOpenOrdersIndexer wpk
        openOrdersAccount := findOpenOrders orderId wpk
        solDestination := wpk }]]
  | _, _ => none

/-- `cancelOrderTransactions`. -/
def cancelOrderTransactions (walletPublicKey : Option PublicKey)
    (openbook : Option Unit) (openbookTwap : Option Unit)
    (orderId : Int) (market : MarketAccountWithKey) : Option (List Tx) :=
  match walletPublicKey, openbook, openbookTwap with
  | some wpk, some _, some _ =>
    some [[Instruction.cancelOrderByClientId OPENBOOK_TWAP_PROGRAM_ID orderId
      { openOrdersAccount := findOpenOrders orderId wpk
        asks := market.account.asks
        bids := market.account.bids
        market := market.publicKey
        twapMarket :=
          findProgramAddressSync "twap_market" market.publicKey OPENBOOK_TWAP_PROGRAM_ID
        openbookProgram := OPENBOOK_PROGRAM_ID }]]
  | _, _, _ => none

/-- The proposal account fields `ProposalList` reads. -/
structure ProposalAccount where
  number : Int
  descriptionUrl : String
  proposer : PublicKey
  deriving DecidableEq, Repr

/-- A proposal account with its address. -/
structure ProposalAccountWithKey where
  publicKey : PublicKey
  account : ProposalAccount
  deriving DecidableEq, Repr

/-- The user-visible content of one rendered proposal card. -/
structure ProposalCard where
  key : String
  title : String
  descriptionHref : String
  proposedBy : String
  tradeTarget : String
  deriving DecidableEq, Repr

/-- The render outcomes of `ProposalList`. -/
inductive ProposalListView where
  | loader
  | noProposals (text : String)
  | cards (cards : List ProposalCard)
  deriving DecidableEq, Repr

/-- The card rendered for one proposal. -/
def proposalCardOf (p : ProposalAccountWithKey) : ProposalCard :=
  { key := pkToStr p.publicKey
    title := "Proposal #" ++ toString (p.account.number + 1)
    descriptionHref := p.account.descriptionUrl
    proposedBy := "Proposed by " ++ shortKey p.account.proposer
    tradeTarget := "/proposal?id=" ++ toString p.account.number }

/-- `ProposalList`, as a pure function from the context-provided proposal list
(`undefined` while loading) to what is rendered. -/
def ProposalList (proposals : Option (List ProposalAccountWithKey)) : ProposalListView :=
  match proposals with
  | none => .loader
  | some ps =>
    if ps.length > 0 then .cards (ps.map proposalCardOf)
    else .noProposals "There are no proposals yet"

/-- A concrete market account used to instantiate closed statements. -/
def sampleMarket : MarketAccountWithKey :=
  ⟨.named "market",
    ⟨.named "base-mint", .named "quote-mint", .named "asks", .named "bids",
      .named "event-heap", .named "base-vault", .named "quote-vault", .named "authority"⟩⟩

/-- A concrete conditional-vault account used to instantiate closed statements. -/
def sampleVault : VaultAccount :=
  ⟨.named "finalize-mint", .named "revert-mint"⟩

theorem all_map_true {α β : Type} (l : List α) (f : α → β) (p : β → Bool)
    (h : ∀ a, p (f a) = true) : (l.map f).all p = true := by
  induction l with
  | nil => rfl
  | cons a t ih => simp [List.all_cons, h a, ih]

theorem all_filter_self {α : Type} (l : List α) (q : α → Bool) :
    (l.filter q).all q = true := by
  simp only [List.all_eq_true]
  intro a ha
  exact (List.mem_filter.mp ha).2

theorem all_filter_of_all {α : Type} (l : List α) (p q : α → Bool)
    (h : l.all p = true) : (l.filter q).all p = true := by
  simp only [List.all_eq_true] at h ⊢
  intro a ha
  exact h a (List.mem_of_mem_filter ha)

theorem crankStep_length_le (acc : List ObjKey) (n : EventNode) (i : Nat) :
    (crankStep acc n i).length ≤ acc.length + 1 := by
  unfold crankStep
  split <;> simpa using Nat.add_le_add_right (List.length_filter_le _ _) 1

theorem crankAccumulateTrunc_length_le :
    ∀ (nodes : List EventNode) (i : Nat) (acc : List ObjKey),
      acc.length ≤ 20 → (crankAccumulateTrunc nodes i acc).length ≤ 21
  | [], _, _, h => by simpa [crankAccumulateTrunc] using Nat.le_succ_of_le h
  | n :: rest, i, acc, h => by
    have hstep := crankStep_length_le acc n i
    simp only [crankAccumulateTrunc]
    split
    · omega
    · exact crankAccumulateTrunc_length_le rest (i + 1) _ (by omega)

/-- C1: for every call to `placeOrderTransactions` whose guard passes (a wallet
public key and both program handles present), the returned list is exactly one
transaction, whose sole `placeOrder` instruction targets the TWAP program with
`marketVault` the market base vault when `ask` is true and the quote vault
otherwise, `userTokenAccount` the caller's associated token address for the base
mint when `ask` is true and the quote mint otherwise, and `twapMarket` the
program address of seed "twap_market" plus the market key under the TWAP
program id. -/
theorem placeOrder_instruction_accounts (QUOTE_LOTS : ℚ) (wpk : PublicKey)
    (indexerFetch : Option OpenOrdersIndexerAccount) (amount price : ℚ)
    (market : MarketAccountWithKey) (limitOrder ask pass : Bool)
    (indexOffset : Option Int) :
    ∃ pre args accounts,
      placeOrderTransactions QUOTE_LOTS (some wpk) (some ()) (some ()) indexerFetch
          amount price market limitOrder ask pass indexOffset
        = some [pre ++ [Instruction.placeOrder OPENBOOK_TWAP_PROGRAM_ID args accounts]]
      ∧ pre.all (fun ix => ! ix.isPlaceOrderIx) = true
      ∧ accounts.marketVault =
          (if ask then market.account.marketBaseVault else market.account.marketQuoteVault)
      ∧ accounts.userTokenAccount = getAssociatedTokenAddressSync
          (if ask then market.account.baseMint else market.account.quoteMint) wpk
      ∧ accounts.twapMarket =
          findProgramAddressSync "twap_market" market.publicKey OPENBOOK_TWAP_PROGRAM_ID := by
  refine ⟨_, _, _, rfl, ?_, rfl, rfl, rfl⟩
  rcases indexerFetch with _ | c <;>
    cases h : jsFalsy indexOffset <;>
      simp [openPreInstructions, createOpenOrdersInstruction,
        createOpenOrdersIndexerInstruction, Instruction.isPlaceOrderIx, h]

/-- C2: when the guard passes, the `placeOrder` arguments map the inputs
directly: with a limit order, priceLots is ⌊price / QUOTE_LOTS⌋, maxBaseLots is
⌊amount⌋ and maxQuoteLotsIncludingFees their product; with a market ask,
priceLots is 1 and maxQuoteLotsIncludingFees is ⌊10 / QUOTE_LOTS⌋; with a market
bid, priceLots is 1,000,000,000,000,000 and maxQuoteLotsIncludingFees is
priceLots * maxBaseLots; clientOrderId is always the computed account index,
expiryTimestamp 0 and limit 255. -/
theorem placeOrder_args_mapping (QUOTE_LOTS : ℚ) (wpk : PublicKey)
    (indexerFetch : Option OpenOrdersIndexerAccount) (amount price : ℚ)
    (market : MarketAccountWithKey) (limitOrder ask pass : Bool)
    (indexOffset : Option Int) :
    ∃ pre accounts,
      placeOrderTransactions QUOTE_LOTS (some wpk) (some ()) (some ()) indexerFetch
          amount price market limitOrder ask pass indexOffset
        = some [pre ++ [Instruction.placeOrder OPENBOOK_TWAP_PROGRAM_ID
            { side := if ask then Side.ask else Side.bid
              priceLots :=
                if limitOrder then Int.floor (price / QUOTE_LOTS)
                else if ask then 1 else 1000000000000000
              maxBaseLots := Int.floor amount
              maxQuoteLotsIncludingFees :=
                if limitOrder then Int.floor (price / QUOTE_LOTS) * Int.floor amount
                else if ask then Int.floor ((10 : ℚ) / QUOTE_LOTS)
                else 1000000000000000 * Int.floor amount
              clientOrderId := accountIndexOf indexerFetch indexOffset
              orderType := if limitOrder then OrderType.limit else OrderType.market
              expiryTimestamp := 0
              selfTradeBehavior := SelfTradeBehavior.abortTransaction
              limit := 255 } accounts]] := by
  cases limitOrder <;> cases ask <;> exact ⟨_, _, rfl⟩

/-- C3: when the guard passes, the `settleFunds` instruction takes the caller's
associated token addresses for the conditional-on-finalize mints of the base and
quote vaults when `passMarket` is true and for the conditional-on-revert mints
otherwise, with owner and penaltyPayer both the wallet key and a null
referrerAccount. -/
theorem settleFunds_user_accounts (wpk : PublicKey) (orderId : Int)
    (passMarket : Bool) (quoteVault baseVault : VaultAccount)
    (market : MarketAccountWithKey) :
    ∃ accounts,
      settleFundsTransactions (some wpk) (some ()) orderId passMarket
          quoteVault baseVault market
        = some [[Instruction.settleFunds OPENBOOK_PROGRAM_ID accounts]]
      ∧ accounts.userBaseAccount = getAssociatedTokenAddressSync
          (if passMarket then baseVault.conditionalOnFinalizeTokenMint
            else baseVault.conditionalOnRevertTokenMint) wpk
      ∧ accounts.userQuoteAccount = getAssociatedTokenAddressSync
          (if passMarket then quoteVault.conditionalOnFinalizeTokenMint
            else quoteVault.conditionalOnRevertTokenMint) wpk
      ∧ accounts.owner = wpk
      ∧ accounts.penaltyPayer = wpk
      ∧ accounts.referrerAccount = none := by
  refine ⟨_, rfl, ?_, ?_, rfl, rfl, rfl⟩ <;> cases passMarket <;> rfl

/-- C7: `ProposalList` renders the loader when the proposal list is undefined,
the text "There are no proposals yet" when it is empty, and otherwise exactly
one card per proposal in list order, keyed by the proposal's public key, titled
"Proposal #" followed by the proposal number plus one, and linking the
proposal's description URL. -/
theorem proposalList_rendering :
    ProposalList none = ProposalListView.loader
    ∧ ProposalList (some []) = ProposalListView.noProposals "There are no proposals yet"
    ∧ ∀ (p : ProposalAccountWithKey) (rest : List ProposalAccountWithKey),
        ProposalList (some (p :: rest)) = ProposalListView.cards ((p :: rest).map fun q =>
          { key := pkToStr q.publicKey
            title := "Proposal #" ++ toString (q.account.number + 1 : Int)
            descriptionHref := q.account.descriptionUrl
            proposedBy := "Proposed by " ++ shortKey q.account.proposer
            tradeTarget := "/proposal?id=" ++ toString (q.account.number : Int) }) := by
  refine ⟨rfl, rfl, fun p rest => ?_⟩
  simp [ProposalList, proposalCardOf]

/-- C8: `cancelOrderTransactions` is a fixed mapping of the intent: any two
calls with the same wallet key, order id and market return the same single
transaction, namely one `cancelOrderByClientId` instruction on the TWAP program
with the order id as argument, the open-orders account derived from order id and
wallet, the market's asks, bids and key, the derived twap market and the
order-book program. -/
theorem cancelOrder_fixed_schema (wpk : PublicKey) (orderId : Int)
    (market : MarketAccountWithKey) (ob1 ob2 tw1 tw2 : Unit) :
    cancelOrderTransactions (some wpk) (some ob1) (some tw1) orderId market
      = cancelOrderTransactions (some wpk) (some ob2) (some tw2) orderId market
    ∧ cancelOrderTransactions (some wpk) (some ob1) (some tw1) orderId market
      = some [[Instruction.cancelOrderByClientId OPENBOOK_TWAP_PROGRAM_ID orderId
          { openOrdersAccount := findOpenOrders orderId wpk
            asks := market.account.asks
            bids := market.account.bids
            market := market.publicKey
            twapMarket :=
              findProgramAddressSync "twap_market" market.publicKey OPENBOOK_TWAP_PROGRAM_ID
            openbookProgram := OPENBOOK_PROGRAM_ID }]] :=
  ⟨rfl, rfl⟩

/-- C4, counterexample: the instruction list of the transaction built by
`placeOrderTransactions` does depend on whether the open-orders indexer fetch
succeeds: at a fixed concrete input (no indexOffset, fetched createdCounter 0),
the success run and the failure run return different transactions, the failure
run containing an extra indexer-creation instruction. -/
theorem placeOrder_fetch_dependence_cex :
    placeOrderTransactions 1 (some (.named "w")) (some ()) (some ())
        (some ⟨0⟩) 1 1 sampleMarket true true true none
      ≠ placeOrderTransactions 1 (some (.named "w")) (some ()) (some ())
        none 1 1 sampleMarket true true true none := by
  simp [placeOrderTransactions, openPreInstructions, accountIndexOf, jsFalsy,
    createOpenOrdersInstruction, createOpenOrdersIndexerInstruction]

/-- C4, amended: the instruction list depends on the fetch outcome; the failure
run builds the same instructions as the success run exactly when `indexOffset`
is truthy and the fetched `createdCounter` is 0 (with a falsy `indexOffset` the
failure run adds an indexer-creation instruction, and a nonzero counter shifts
the account index and with it the created open-orders account and the client
order id). -/
theorem placeOrder_fetch_dependence (QUOTE_LOTS : ℚ) (wpk : PublicKey) (c : Int)
    (amount price : ℚ) (market : MarketAccountWithKey) (limitOrder ask pass : Bool)
    (indexOffset : Option Int) :
    (placeOrderTransactions QUOTE_LOTS (some wpk) (some ()) (some ()) (some ⟨c⟩)
        amount price market limitOrder ask pass indexOffset
      = placeOrderTransactions QUOTE_LOTS (some wpk) (some ()) (some ()) none
        amount price market limitOrder ask pass indexOffset)
    ↔ jsFalsy indexOffset = false ∧ c = 0 := by
  cases h : jsFalsy indexOffset with
  | true =>
    simp [placeOrderTransactions, openPreInstructions, accountIndexOf, h,
      createOpenOrdersInstruction, createOpenOrdersIndexerInstruction]
  | false =>
    simp only [eq_self_iff_true, true_and]
    simp [placeOrderTransactions, openPreInstructions, accountIndexOf, h,
      createOpenOrdersInstruction, createOpenOrdersIndexerInstruction]
    constructor
    · rintro ⟨⟨hc, -⟩, -⟩
      exact hc
    · rintro rfl
      norm_num

/-- C5: order placement and cancellation are issued through the TWAP wrapper
program, while settling funds, closing the open-orders account and cranking
(`consumeEvents`) are issued directly against the order-book exchange
program. -/
theorem program_routing (QUOTE_LOTS : ℚ) (wpk : PublicKey)
    (indexerFetch : Option OpenOrdersIndexerAccount) (amount price : ℚ)
    (market : MarketAccountWithKey) (limitOrder ask pass passMarket : Bool)
    (indexOffset : Option Int) (heapFetch : Option EventHeap)
    (individualEvent : Option PublicKey) (quoteVault baseVault : VaultAccount)
    (orderId : Int) :
    (∃ pre args accounts,
      placeOrderTransactions QUOTE_LOTS (some wpk) (some ()) (some ()) indexerFetch
          amount price market limitOrder ask pass indexOffset
        = some [pre ++ [Instruction.placeOrder OPENBOOK_TWAP_PROGRAM_ID args accounts]])
    ∧ (∃ accounts,
      cancelOrderTransactions (some wpk) (some ()) (some ()) orderId market
        = some [[Instruction.cancelOrderByClientId OPENBOOK_TWAP_PROGRAM_ID orderId accounts]])
    ∧ (∃ accounts,
      settleFundsTransactions (some wpk) (some ()) orderId passMarket
          quoteVault baseVault market
        = some [[Instruction.settleFunds OPENBOOK_PROGRAM_ID accounts]])
    ∧ (∃ accounts,
      closeOpenOrdersAccountTransactions (some wpk) (some ()) orderId
        = some [[Instruction.closeOpenOrdersAccount OPENBOOK_PROGRAM_ID accounts]])
    ∧ (∃ lim accounts rem,
      crankMarketTransactions (some wpk) (some ()) (some ()) heapFetch market individualEvent
        = some [[Instruction.consumeEvents OPENBOOK_PROGRAM_ID lim accounts rem]]) :=
  ⟨⟨_, _, _, rfl⟩, ⟨_, rfl⟩, ⟨_, rfl⟩, ⟨_, rfl⟩, ⟨_, _, _, rfl⟩⟩

/-- C6: what the code does at the failing input: an event heap with two fill
events decoding to the same maker key yields a remaining-accounts list holding
that key twice. The `filter` with `!==` compares object references, and freshly
decoded event objects are never reference-equal to earlier entries, so the
earlier occurrence is never removed. -/
theorem crank_keeps_duplicate_maker :
    crankMarketTransactions (some (.named "w")) (some ()) (some ())
        (some ⟨[⟨0, .named "maker"⟩, ⟨0, .named "maker"⟩]⟩) sampleMarket none
      = some [[Instruction.consumeEvents OPENBOOK_PROGRAM_ID 2
          ⟨OPENBOOK_PROGRAM_ID, sampleMarket.publicKey, sampleMarket.account.eventHeap⟩
          [⟨.named "maker", false, true⟩, ⟨.named "maker", false, true⟩]]] := by
  rfl

/-- C9: without an `individualEvent`, the remaining-accounts list passed to
`consumeEvents` has at most 21 entries, every entry is writable and non-signer,
and the `limit` argument is the list's length; with an `individualEvent`, only
entries whose public-key string equals the event's string are retained. -/
theorem crank_remaining_accounts_spec (wpk : PublicKey) (heapFetch : Option EventHeap)
    (market : MarketAccountWithKey) :
    (∃ rem, crankMarketTransactions (some wpk) (some ()) (some ()) heapFetch market none
        = some [[Instruction.consumeEvents OPENBOOK_PROGRAM_ID (rem.length : Int)
            ⟨OPENBOOK_PROGRAM_ID, market.publicKey, market.account.eventHeap⟩ rem]]
      ∧ rem.length ≤ 21
      ∧ rem.all (fun m => m.isWritable && ! m.isSigner) = true)
    ∧ ∀ ev : PublicKey, ∃ rem,
      crankMarketTransactions (some wpk) (some ()) (some ()) heapFetch market (some ev)
        = some [[Instruction.consumeEvents OPENBOOK_PROGRAM_ID (rem.length : Int)
            ⟨OPENBOOK_PROGRAM_ID, market.publicKey, market.account.eventHeap⟩ rem]]
      ∧ rem.all (fun m => pkToStr m.pubkey == pkToStr ev) = true
      ∧ rem.all (fun m => m.isWritable && ! m.isSigner) = true := by
  constructor
  · rcases heapFetch with _ | heap
    · exact ⟨[], rfl, by simp, rfl⟩
    · refine ⟨_, rfl, ?_, ?_⟩
      · simpa using crankAccumulateTrunc_length_le heap.nodes 0 [] (by simp)
      · exact all_map_true _ _ _ (fun a => rfl)
  · intro ev
    rcases heapFetch with _ | heap
    · exact ⟨[], rfl, rfl, rfl⟩
    · refine ⟨_, rfl, ?_, ?_⟩
      · exact all_filter_self _ _
      · exact all_filter_of_all _ _ _ (all_map_true _ _ _ (fun a => rfl))

/-- C10: every builder returns undefined when its precondition fails:
`placeOrderTransactions`, `crankMarketTransactions` and `cancelOrderTransactions`
whenever the wallet key, the order-book program or the TWAP program is absent,
and `settleFundsTransactions` and `closeOpenOrdersAccountTransactions` whenever
the wallet key or the order-book program is absent. -/
theorem builders_guard (QUOTE_LOTS : ℚ) (walletPublicKey : Option PublicKey)
    (openbook openbookTwap : Option Unit) (indexerFetch : Option OpenOrdersIndexerAccount)
    (amount price : ℚ) (market : MarketAccountWithKey)
    (limitOrder ask pass passMarket : Bool) (indexOffset : Option Int)
    (heapFetch : Option EventHeap) (individualEvent : Option PublicKey)
    (quoteVault baseVault : VaultAccount) (orderId : Int) :
    ((walletPublicKey = none ∨ openbook = none ∨ openbookTwap = none) →
      placeOrderTransactions QUOTE_LOTS walletPublicKey openbook openbookTwap indexerFetch
          amount price market limitOrder ask pass indexOffset = none
      ∧ crankMarketTransactions walletPublicKey openbook openbookTwap heapFetch market
          individualEvent = none
      ∧ cancelOrderTransactions walletPublicKey openbook openbookTwap orderId market = none)
    ∧ ((walletPublicKey = none ∨ openbook = none) →
      settleFundsTransactions walletPublicKey openbook orderId passMarket
          quoteVault baseVault market = none
      ∧ closeOpenOrdersAccountTransactions walletPublicKey openbook orderId = none) := by
  cases walletPublicKey <;> cases openbook <;> cases openbookTwap <;>
    refine ⟨fun h => ?_, fun h => ?_⟩ <;>
      first
        | exact ⟨rfl, rfl, rfl⟩
        | exact ⟨rfl, rfl⟩
        | (rcases h with h | h | h <;> exact absurd h (by simp))

/-- Witness: the guard clauses fire at a concrete absent wallet key. -/
theorem builders_guard_witness :
    placeOrderTransactions 1 none (some ()) (some ()) none 1 1 sampleMarket
        true true true none = none
    ∧ crankMarketTransactions none (some ()) (some ()) none sampleMarket none = none
    ∧ cancelOrderTransactions none (some ()) (some ()) 1 sampleMarket = none
    ∧ settleFundsTransactions none (some ()) 1 true sampleVault sampleVault sampleMarket = none
    ∧ closeOpenOrdersAccountTransactions none (some ()) 1 = none := by
  have h := builders_guard 1 none (some ()) (some ()) none 1 1 sampleMarket
    true true true true none none none sampleVault sampleVault 1
  exact ⟨(h.1 (Or.inl rfl)).1, (h.1 (Or.inl rfl)).2.1, (h.1 (Or.inl rfl)).2.2,
    (h.2 (Or.inl rfl)).1, (h.2 (Or.inl rfl)).2⟩

end MetaDaoFrontend
